import Mathlib

/-!
Verification of the Scipher document-processing pipeline
(`src/backend/src/scipher/core/document_processor.py` together with the
status enum of `src/backend/src/scipher/models/schemas.py`).

Modelling conventions:

* Python `str` values are modelled as `List Char` (`PyStr`); the Python
  methods used by the source (`strip`, `split`, `startswith`, slicing,
  `isalpha`, `isalnum`, `isspace`, `lower`, `in`) are given as explicit
  list functions below.  Python's Unicode character classes are modelled
  by Lean's `Char.isAlpha` / `Char.isAlphanum` / `Char.isWhitespace`.
* Python floats are modelled as exact rationals (`ℚ`); no comparison in
  the translated code is close enough to a branch point for IEEE rounding
  to change a branch on the inputs the claims are about.
* The SQLAlchemy session is modelled as an explicit `Session` record.
  Attribute assignments on loaded objects are in-memory updates, `db.add`
  puts a row into the pending list, and `commit` flushes the pending list
  into the committed list (SQLAlchemy's `commit` flushes every pending
  change of the session).
* `datetime.now` timestamps are modelled as a `Bool` flag recording
  whether the field was set.
-/

/-- Python strings, modelled as lists of characters. -/
abbrev PyStr := List Char

/-- Python `str.strip()`: drop leading and trailing whitespace. -/
def pyStrip (s : PyStr) : PyStr :=
  ((s.dropWhile Char.isWhitespace).reverse.dropWhile Char.isWhitespace).reverse

/-- Python `text.split("\n")`: split at every newline, keeping empty pieces
(`"" .split("\n") == [""]`). -/
def splitNl : PyStr → List PyStr
  | [] => [[]]
  | c :: rest =>
      if c = '\n' then [] :: splitNl rest
      else
        match splitNl rest with
        | [] => [[c]]
        | p :: ps => (c :: p) :: ps

/-- `document_processor.py` line 73:
`timeout = min(600, max(120, int(file_size_mb * 20)))` with
`file_size_mb = size_bytes / (1024 * 1024)`; `int` truncates, which on
nonnegative values is `Nat` division. -/
def computeTimeout (sizeBytes : Nat) : Nat :=
  min 600 (max 120 (sizeBytes * 20 / (1024 * 1024)))

/-- The deadline as the spec words it: `clamp(file_size_MB * 20, 120, 600)`. -/
def clampSpecTimeout (sizeBytes : Nat) : Nat :=
  let x := sizeBytes * 20 / (1024 * 1024)
  if x < 120 then 120 else if 600 < x then 600 else x

lemma computeTimeout_eq_clamp (n : Nat) : computeTimeout n = clampSpecTimeout n := by
  unfold computeTimeout clampSpecTimeout
  simp only [Nat.min_def, Nat.max_def]
  split_ifs <;> omega

/-- C3: the extraction deadline equals `clamp(file_size_MB * 20, 120, 600)`
seconds, is monotone in the file size, always lies in `[120, 600]`, and on
1 MB, 5 MB and 50 MB files yields 120 s, 120 s and 600 s respectively. -/
theorem timeout_clamped_monotone (n m : Nat) :
    computeTimeout n = clampSpecTimeout n ∧
    120 ≤ computeTimeout n ∧ computeTimeout n ≤ 600 ∧
    (n ≤ m → computeTimeout n ≤ computeTimeout m) ∧
    computeTimeout (1 * 1024 * 1024) = 120 ∧
    computeTimeout (5 * 1024 * 1024) = 120 ∧
    computeTimeout (50 * 1024 * 1024) = 600 := by
  refine ⟨computeTimeout_eq_clamp n, ?_, ?_, ?_, by decide, by decide, by decide⟩
  · exact le_min (by norm_num) (le_max_left _ _)
  · exact min_le_left _ _
  · intro hnm
    unfold computeTimeout
    have : n * 20 / (1024 * 1024) ≤ m * 20 / (1024 * 1024) :=
      Nat.div_le_div_right (Nat.mul_le_mul_right _ hnm)
    exact min_le_min (le_refl _) (max_le_max (le_refl _) this)

/-- Witness for C3 at concrete sizes, including the monotonicity hypothesis. -/
theorem timeout_clamped_monotone_witness :
    computeTimeout (3 * 1024 * 1024) = clampSpecTimeout (3 * 1024 * 1024) ∧
    computeTimeout (3 * 1024 * 1024) ≤ computeTimeout (40 * 1024 * 1024) := by
  exact ⟨(timeout_clamped_monotone (3 * 1024 * 1024) (40 * 1024 * 1024)).1,
    (timeout_clamped_monotone (3 * 1024 * 1024) (40 * 1024 * 1024)).2.2.2.1 (by norm_num)⟩

/-! ## Quality scorer (`DocumentProcessor._calculate_quality`, lines 226-270) -/

/-- Python `c.isalpha() or c.isspace()` (line 240). -/
def isAlphaSpace (c : Char) : Bool := c.isAlpha || c.isWhitespace

/-- Python line 245: `not c.isalnum() and not c.isspace() and c not in '.,!?;:()-"'`. -/
def isNoiseChar (c : Char) : Bool :=
  !c.isAlphanum && !c.isWhitespace && !(".,!?;:()-\"".data.contains c)

/-- Auxiliary splitter for Python `str.split()` (split on whitespace runs,
no empty pieces); `cur` holds the current word reversed. -/
def pySplitWsAux : PyStr → PyStr → List PyStr
  | [], cur => if cur.isEmpty then [] else [cur.reverse]
  | c :: rest, cur =>
      if c.isWhitespace then
        if cur.isEmpty then pySplitWsAux rest []
        else cur.reverse :: pySplitWsAux rest []
      else pySplitWsAux rest (c :: cur)

/-- Python `text.split()`. -/
def pySplitWs (s : PyStr) : List PyStr := pySplitWsAux s []

/-- Python `w.isalpha()`: nonempty and all alphabetic. -/
def isAlphaWord (w : PyStr) : Bool := !w.isEmpty && w.all Char.isAlpha

/-- A sentence delimiter of `re.split(r'[.!?]+', text)` (line 259). -/
def isSentenceEnd (c : Char) : Bool := c = '.' || c = '!' || c = '?'

/-- Splitter on sentence delimiters, dropping empty pieces.  Splitting on the
regex `[.!?]+` differs from this only in producing empty pieces between
adjacent delimiters, and line 259 filters blank pieces away anyway. -/
def splitSentAux : PyStr → PyStr → List PyStr
  | [], cur => if cur.isEmpty then [] else [cur.reverse]
  | c :: rest, cur =>
      if isSentenceEnd c then
        if cur.isEmpty then splitSentAux rest []
        else cur.reverse :: splitSentAux rest []
      else splitSentAux rest (c :: cur)

/-- Line 259: `[s.strip() for s in re.split(r'[.!?]+', text) if s.strip()]`. -/
def pySentences (text : PyStr) : List PyStr :=
  ((splitSentAux text []).map pyStrip).filter (fun s => !s.isEmpty)

/-- Line 240: `sum(c.isalpha() or c.isspace() for c in text) / len(text)`. -/
def alphaFrac (text : PyStr) : ℚ := (text.countP isAlphaSpace : ℚ) / (text.length : ℚ)

/-- Line 245: special-character fraction of the text. -/
def noiseFrac (text : PyStr) : ℚ := (text.countP isNoiseChar : ℚ) / (text.length : ℚ)

/-- Line 250: `[w for w in text.split() if w.isalpha()]`. -/
def alphaWords (text : PyStr) : List PyStr := (pySplitWs text).filter isAlphaWord

/-- Line 252: mean length of the alphabetic words. -/
def avgWordLen (text : PyStr) : ℚ :=
  (((alphaWords text).map List.length).sum : ℚ) / ((alphaWords text).length : ℚ)

/-- Line 261: mean number of whitespace-separated words per sentence. -/
def avgSentLen (text : PyStr) : ℚ :=
  (((pySentences text).map (fun s => (pySplitWs s).length)).sum : ℚ) /
    ((pySentences text).length : ℚ)

/-- Line 266: the research-term list. -/
def researchTerms : List PyStr :=
  ["abstract".data, "introduction".data, "method".data, "result".data,
   "conclusion".data, "reference".data]

/-- Python substring containment `sub in s`. -/
def isSubstrOf : PyStr → PyStr → Bool
  | sub, [] => sub.isPrefixOf []
  | sub, s@(_ :: rest) => sub.isPrefixOf s || isSubstrOf sub rest

/-- Line 267: `any(term in text.lower() for term in research_terms)`. -/
def hasResearchTerm (text : PyStr) : Bool :=
  researchTerms.any (fun term => isSubstrOf term (text.map Char.toLower))

/-- `DocumentProcessor._calculate_quality`, translated statement by statement;
the sequence of `score` mutations becomes a chain of `let` bindings. -/
def calculate_quality (text : PyStr) : ℚ :=
  if text.isEmpty || text.length < 100 then 0
  else
    let s0 : ℚ := 1
    let s1 := if alphaFrac text < 7/10 then s0 - 3/10 else s0
    let s2 := if 3/20 < noiseFrac text then s1 - 1/5 else s1
    let s3 :=
      if !(alphaWords text).isEmpty then
        if avgWordLen text < 3 then s2 - 3/10
        else if 10 < avgWordLen text then s2 - 1/10
        else s2
      else s2
    let s4 :=
      if 5 < (pySentences text).length then
        if 5 < avgSentLen text ∧ avgSentLen text < 50 then s3 + 1/10 else s3
      else s3
    let s5 := if hasResearchTerm text then s4 + 1/10 else s4
    max 0 (min 1 s5)

/-- The alpha-or-space penalty of `_calculate_quality` (lines 240-242). -/
def alphaPenalty (text : PyStr) : ℚ := if alphaFrac text < 7/10 then 3/10 else 0

/-- The noise-character penalty (lines 245-247). -/
def noisePenalty (text : PyStr) : ℚ := if 3/20 < noiseFrac text then 1/5 else 0

/-- The word-length penalty (lines 250-256). -/
def wordLenPenalty (text : PyStr) : ℚ :=
  if !(alphaWords text).isEmpty then
    if avgWordLen text < 3 then 3/10
    else if 10 < avgWordLen text then 1/10
    else 0
  else 0

/-- The sentence-structure bonus (lines 259-263). -/
def sentenceBonus (text : PyStr) : ℚ :=
  if 5 < (pySentences text).length then
    if 5 < avgSentLen text ∧ avgSentLen text < 50 then 1/10 else 0
  else 0

/-- The research-term bonus (lines 266-268). -/
def termBonus (text : PyStr) : ℚ := if hasResearchTerm text then 1/10 else 0

set_option maxHeartbeats 1000000 in
lemma quality_decomp (text : PyStr) (h : (text.isEmpty || text.length < 100) = false) :
    calculate_quality text =
      max 0 (min 1 (1 - alphaPenalty text - noisePenalty text - wordLenPenalty text
        + sentenceBonus text + termBonus text)) := by
  unfold calculate_quality alphaPenalty noisePenalty wordLenPenalty sentenceBonus termBonus
  rw [h]
  simp only [Bool.false_eq_true, if_false]
  split_ifs <;> norm_num

lemma alphaPenalty_bounds (text : PyStr) :
    0 ≤ alphaPenalty text ∧ alphaPenalty text ≤ 3/10 := by
  unfold alphaPenalty; split_ifs <;> norm_num

lemma noisePenalty_bounds (text : PyStr) :
    0 ≤ noisePenalty text ∧ noisePenalty text ≤ 1/5 := by
  unfold noisePenalty; split_ifs <;> norm_num

lemma wordLenPenalty_bounds (text : PyStr) :
    0 ≤ wordLenPenalty text ∧ wordLenPenalty text ≤ 3/10 := by
  unfold wordLenPenalty; split_ifs <;> norm_num

lemma sentenceBonus_bounds (text : PyStr) :
    0 ≤ sentenceBonus text ∧ sentenceBonus text ≤ 1/10 := by
  unfold sentenceBonus; split_ifs <;> norm_num

lemma termBonus_bounds (text : PyStr) :
    0 ≤ termBonus text ∧ termBonus text ≤ 1/10 := by
  unfold termBonus; split_ifs <;> norm_num

lemma quality_guard_false (text : PyStr) (h : 100 ≤ text.length) :
    (text.isEmpty || decide (text.length < 100)) = false := by
  have h1 : text.isEmpty = false := by
    cases text
    · simp at h
    · rfl
  rw [h1]
  simp only [Bool.false_or, decide_eq_false_iff_not]
  omega

lemma quality_range (text : PyStr) :
    0 ≤ calculate_quality text ∧ calculate_quality text ≤ 1 := by
  rcases h : (text.isEmpty || decide (text.length < 100)) with _ | _
  · rw [quality_decomp text h]
    exact ⟨le_max_left _ _, max_le (by norm_num) (min_le_left _ _)⟩
  · unfold calculate_quality
    rw [h]
    norm_num

lemma quality_short_circuit (text : PyStr) (h : text.length < 100) :
    calculate_quality text = 0 := by
  unfold calculate_quality
  have hg : (text.isEmpty || decide (text.length < 100)) = true := by
    simp [h]
  rw [hg]
  simp

lemma quality_pos_of_long (text : PyStr) (h : 100 ≤ text.length) :
    1/5 ≤ calculate_quality text := by
  have hb := quality_guard_false text h
  rw [quality_decomp text hb]
  have h1 := alphaPenalty_bounds text
  have h2 := noisePenalty_bounds text
  have h3 := wordLenPenalty_bounds text
  have h4 := sentenceBonus_bounds text
  have h5 := termBonus_bounds text
  have hs : (1:ℚ)/5 ≤ 1 - alphaPenalty text - noisePenalty text - wordLenPenalty text
      + sentenceBonus text + termBonus text := by linarith
  calc (1:ℚ)/5 ≤ min 1 (1 - alphaPenalty text - noisePenalty text - wordLenPenalty text
        + sentenceBonus text + termBonus text) := le_min (by norm_num) hs
    _ ≤ max 0 _ := le_max_right _ _

/-- C4: the quality scorer is a total function returning a clamped score in
`[0, 1]`; text shorter than 100 characters scores exactly 0; longer text
scores `1` minus the alpha-ratio, noise-ratio and word-length penalties plus
the sentence and research-term bonuses, clamped to `[0, 1]`. -/
theorem quality_contract (text : PyStr) :
    (0 ≤ calculate_quality text ∧ calculate_quality text ≤ 1) ∧
    (text.length < 100 → calculate_quality text = 0) ∧
    (100 ≤ text.length →
      calculate_quality text =
        max 0 (min 1 (1 - alphaPenalty text - noisePenalty text - wordLenPenalty text
          + sentenceBonus text + termBonus text))) := by
  exact ⟨quality_range text, quality_short_circuit text,
    fun h => quality_decomp text (quality_guard_false text h)⟩

/-- C10: the score is 0 exactly on texts shorter than 100 characters, and
strictly positive (at least 1/5 before any bonus can only help) on all
longer texts. -/
theorem quality_zero_iff_short (text : PyStr) :
    (calculate_quality text = 0 ↔ text.length < 100) ∧
    (100 ≤ text.length → 0 < calculate_quality text) := by
  have hpos : 100 ≤ text.length → 0 < calculate_quality text := fun h =>
    lt_of_lt_of_le (by norm_num) (quality_pos_of_long text h)
  refine ⟨⟨fun hz => ?_, quality_short_circuit text⟩, hpos⟩
  by_contra hlt
  push_neg at hlt
  have := hpos hlt
  rw [hz] at this
  exact lt_irrefl 0 this


/-! ## Section segmenter (`DocumentProcessor.parse_sections`, lines 272-302) -/

/-- The section types written into `Section.section_type` ("title",
"section", "subsection", "body"); `section` is a Lean keyword, hence the
trailing underscore. -/
inductive SectionType
  | title
  | section_
  | subsection
  | body
deriving DecidableEq

/-- One element of the list `parse_sections` returns:
`{"type": ..., "content": ...}`. -/
structure SectionData where
  type : SectionType
  content : PyStr
deriving DecidableEq

/-- Lines 285-286 / 289-290 / 293-294: the previously open section is
appended to `sections` only if `current["content"].strip()` is truthy. -/
def flushIf (cur : SectionData) (secs : List SectionData) : List SectionData :=
  if (pyStrip cur.content).isEmpty then secs else secs ++ [cur]

/-- The `for line in text.split("\n")` loop of `parse_sections`
(lines 281-300), with the running `current` section and the accumulated
`sections` list made explicit; the final flush of lines 299-300 is the
base case. -/
def parseLines : List PyStr → SectionData → List SectionData → List SectionData
  | [], cur, secs => flushIf cur secs
  | line :: rest, cur, secs =>
      let ls := pyStrip line
      if "# ".data.isPrefixOf ls && !"## ".data.isPrefixOf ls then
        parseLines rest ⟨.title, ls.drop 2 ++ ['\n']⟩ (flushIf cur secs)
      else if "## ".data.isPrefixOf ls && !"### ".data.isPrefixOf ls then
        parseLines rest ⟨.section_, ls.drop 3 ++ ['\n']⟩ (flushIf cur secs)
      else if "### ".data.isPrefixOf ls then
        parseLines rest ⟨.subsection, ls.drop 4 ++ ['\n']⟩ (flushIf cur secs)
      else
        parseLines rest ⟨cur.type, cur.content ++ line ++ ['\n']⟩ secs

/-- `DocumentProcessor.parse_sections` applied to the extracted text:
lines 277-302, including the `sections or [{"type": "body", "content": text}]`
fallback. -/
def parse_sections (text : PyStr) : List SectionData :=
  let secs := parseLines (splitNl text) ⟨.body, []⟩ []
  if secs.isEmpty then [⟨.body, text⟩] else secs

/-- The heading rule as the spec words it: match the most specific marker
first, so a longer marker never falls into a shorter rule; yields the
section type and the marker length to strip. -/
def headerRule (ls : PyStr) : Option (SectionType × Nat) :=
  if "### ".data.isPrefixOf ls then some (.subsection, 4)
  else if "## ".data.isPrefixOf ls then some (.section_, 3)
  else if "# ".data.isPrefixOf ls then some (.title, 2)
  else none

/-- The scan loop as the spec words it, dispatching on `headerRule`. -/
def parseLinesSpec : List PyStr → SectionData → List SectionData → List SectionData
  | [], cur, secs => flushIf cur secs
  | line :: rest, cur, secs =>
      match headerRule (pyStrip line) with
      | some (t, k) =>
          parseLinesSpec rest ⟨t, (pyStrip line).drop k ++ ['\n']⟩ (flushIf cur secs)
      | none =>
          parseLinesSpec rest ⟨cur.type, cur.content ++ line ++ ['\n']⟩ secs

/-- The section segmenter as described by the spec. -/
def parse_sectionsSpec (text : PyStr) : List SectionData :=
  let secs := parseLinesSpec (splitNl text) ⟨.body, []⟩ []
  if secs.isEmpty then [⟨.body, text⟩] else secs

lemma marker1_excl_marker2 (ls : PyStr) (h : "# ".data.isPrefixOf ls = true) :
    "## ".data.isPrefixOf ls = false := by
  match ls with
  | [] => simp [List.isPrefixOf] at h
  | [c] => simp [List.isPrefixOf] at h
  | c :: d :: rest =>
      simp only [List.isPrefixOf, Bool.and_eq_true, beq_iff_eq] at h
      obtain ⟨rfl, rfl, -⟩ := h
      simp [List.isPrefixOf]

lemma marker1_excl_marker3 (ls : PyStr) (h : "# ".data.isPrefixOf ls = true) :
    "### ".data.isPrefixOf ls = false := by
  match ls with
  | [] => simp [List.isPrefixOf] at h
  | [c] => simp [List.isPrefixOf] at h
  | c :: d :: rest =>
      simp only [List.isPrefixOf, Bool.and_eq_true, beq_iff_eq] at h
      obtain ⟨rfl, rfl, -⟩ := h
      simp [List.isPrefixOf]

lemma marker2_excl_marker3 (ls : PyStr) (h : "## ".data.isPrefixOf ls = true) :
    "### ".data.isPrefixOf ls = false := by
  match ls with
  | [] => simp [List.isPrefixOf] at h
  | [c] => simp [List.isPrefixOf] at h
  | [c, d] => simp [List.isPrefixOf] at h
  | c :: d :: e :: rest =>
      simp only [List.isPrefixOf, Bool.and_eq_true, beq_iff_eq] at h
      obtain ⟨rfl, rfl, rfl, -⟩ := h
      simp [List.isPrefixOf]

lemma headerRule_cases (ls : PyStr) :
    headerRule ls =
      (if "# ".data.isPrefixOf ls && !"## ".data.isPrefixOf ls then some (.title, 2)
       else if "## ".data.isPrefixOf ls && !"### ".data.isPrefixOf ls then some (.section_, 3)
       else if "### ".data.isPrefixOf ls then some (.subsection, 4)
       else none) := by
  rcases h1 : "# ".data.isPrefixOf ls with _ | _
  · rcases h2 : "## ".data.isPrefixOf ls with _ | _
    · rcases h3 : "### ".data.isPrefixOf ls with _ | _
      · simp [headerRule, h1, h2, h3]
      · simp [headerRule, h1, h2, h3]
    · have h3 := marker2_excl_marker3 ls h2
      simp [headerRule, h1, h2, h3]
  · have h2 := marker1_excl_marker2 ls h1
    have h3 := marker1_excl_marker3 ls h1
    simp [headerRule, h1, h2, h3]

lemma parseLines_eq_spec (lines : List PyStr) :
    ∀ cur secs, parseLinesSpec lines cur secs = parseLines lines cur secs := by
  induction lines with
  | nil => intro cur secs; rfl
  | cons line rest ih =>
      intro cur secs
      rw [parseLinesSpec, parseLines, headerRule_cases (pyStrip line)]
      split_ifs with h1 h2 h3 <;> simp only [ih]

lemma parse_sections_eq_spec (text : PyStr) :
    parse_sections text = parse_sectionsSpec text := by
  unfold parse_sections parse_sectionsSpec
  rw [parseLines_eq_spec]

lemma parse_sections_ne_nil (text : PyStr) : parse_sections text ≠ [] := by
  unfold parse_sections
  rcases h : (parseLines (splitNl text) ⟨.body, []⟩ []).isEmpty with _ | _
  · simp [h]
    intro hc
    rw [hc] at h
    simp at h
  · simp [h]

/-- C5: the line scan of `parse_sections` behaves exactly as the spec's
most-specific-marker-first description (`parse_sectionsSpec`), in
particular a longer marker never matches a shorter rule, and the result
is never empty for non-empty input. -/
theorem parse_sections_spec_and_nonempty (text : PyStr) :
    parse_sections text = parse_sectionsSpec text ∧
    (text ≠ [] → parse_sections text ≠ []) := by
  exact ⟨parse_sections_eq_spec text, fun _ => parse_sections_ne_nil text⟩

/-- Witness for C5 on a concrete document, discharging the non-emptiness
hypothesis. -/
theorem parse_sections_spec_and_nonempty_witness :
    parse_sections "# Title\nbody text\n## Methods".data =
        parse_sectionsSpec "# Title\nbody text\n## Methods".data ∧
      parse_sections "# Title\nbody text\n## Methods".data ≠ [] := by
  exact ⟨(parse_sections_spec_and_nonempty _).1,
    (parse_sections_spec_and_nonempty "# Title\nbody text\n## Methods".data).2 (by decide)⟩

/-! ## Reconstruction property of the segmenter (C6) -/

/-- A row of the `sections` table as staged in `process_document`
lines 96-104 (the source class is named `Section`, a Lean keyword). -/
structure SectionRow where
  document_id : PyStr
  section_type : SectionType
  content : PyStr
  order : Nat
deriving DecidableEq

/-- Lines 96-104: `for idx, sdata in enumerate(sections): db.add(Section(
document_id=doc_id, section_type=sdata["type"], content=sdata["content"],
order=idx))`. -/
def stageSections (docId : PyStr) (secs : List SectionData) : List SectionRow :=
  secs.enum.map (fun p => ⟨docId, p.2.type, p.2.content, p.1⟩)

/-- One line of the input with its heading marker stripped: the reference
transformation against which C6's reconstruction is stated. -/
def stripMarkersLine (line : PyStr) : PyStr :=
  match headerRule (pyStrip line) with
  | some (_, k) => (pyStrip line).drop k
  | none => line

/-- The input text with heading markers stripped, one newline-terminated
piece per line. -/
def strippedLinesText (text : PyStr) : PyStr :=
  ((splitNl text).map (fun l => stripMarkersLine l ++ ['\n'])).flatten

/-- The last character, if any, is whitespace. -/
def endsWs : PyStr → Bool
  | [] => false
  | [c] => c.isWhitespace
  | _ :: c :: rest => endsWs (c :: rest)

lemma endsWs_snoc_nl (a : PyStr) : endsWs (a ++ ['\n']) = true := by
  induction a with
  | nil => rfl
  | cons d a ih =>
      cases a with
      | nil => rfl
      | cons e a2 => exact ih

lemma pySplitWsAux_append (a b : PyStr) (h : endsWs a = true) :
    ∀ cur, pySplitWsAux (a ++ b) cur = pySplitWsAux a cur ++ pySplitWsAux b [] := by
  induction a with
  | nil => simp [endsWs] at h
  | cons c a ih =>
      intro cur
      match a with
      | [] =>
          have hc : c.isWhitespace = true := h
          simp only [List.cons_append, List.nil_append, pySplitWsAux, hc, if_true]
          rcases hcur : cur.isEmpty with _ | _ <;> simp [pySplitWsAux, hcur]
      | d :: a2 =>
          have h2 : endsWs (d :: a2) = true := h
          have lhs : pySplitWsAux (c :: (d :: a2 ++ b)) cur =
              if c.isWhitespace then
                if cur.isEmpty then pySplitWsAux (d :: a2 ++ b) []
                else cur.reverse :: pySplitWsAux (d :: a2 ++ b) []
              else pySplitWsAux (d :: a2 ++ b) (c :: cur) := rfl
          have rhs : pySplitWsAux (c :: d :: a2) cur =
              if c.isWhitespace then
                if cur.isEmpty then pySplitWsAux (d :: a2) []
                else cur.reverse :: pySplitWsAux (d :: a2) []
              else pySplitWsAux (d :: a2) (c :: cur) := rfl
          rw [List.cons_append, lhs, rhs]
          rcases hw : c.isWhitespace with _ | _
          · simp only [hw, Bool.false_eq_true, if_false]
            exact ih h2 (c :: cur)
          · rcases hcur : cur.isEmpty with _ | _
            · simp only [hw, hcur, Bool.false_eq_true, if_true, if_false]
              rw [ih h2 []]
              simp
            · simp only [hw, hcur, if_true]
              exact ih h2 []

lemma pySplitWs_append_of_endsWs (a b : PyStr) (h : a = [] ∨ endsWs a = true) :
    pySplitWs (a ++ b) = pySplitWs a ++ pySplitWs b := by
  rcases h with rfl | h
  · rfl
  · exact pySplitWsAux_append a b h []

lemma pySplitWsAux_eq_nil (s : PyStr) :
    ∀ cur, pySplitWsAux s cur = [] ↔ (s.all Char.isWhitespace = true ∧ cur = []) := by
  induction s with
  | nil =>
      intro cur
      rcases hcur : cur.isEmpty with _ | _ <;>
        simp_all [pySplitWsAux, List.isEmpty_iff]
  | cons c rest ih =>
      intro cur
      rcases hw : c.isWhitespace with _ | _
      · simp [pySplitWsAux, hw, ih]
      · rcases hcur : cur.isEmpty with _ | _
        · have : cur ≠ [] := by simpa [List.isEmpty_iff] using hcur
          simp [pySplitWsAux, hw, hcur, ih, this]
        · have : cur = [] := by simpa [List.isEmpty_iff] using hcur
          subst this
          simp [pySplitWsAux, hw, ih]

lemma pySplitWs_eq_nil_of_all (s : PyStr) (h : s.all Char.isWhitespace = true) :
    pySplitWs s = [] :=
  (pySplitWsAux_eq_nil s []).mpr ⟨h, rfl⟩

lemma pyStrip_isEmpty_iff (s : PyStr) :
    (pyStrip s).isEmpty = true ↔ s.all Char.isWhitespace = true := by
  unfold pyStrip
  simp only [List.isEmpty_iff, List.reverse_eq_nil_iff, List.dropWhile_eq_nil_iff,
    List.mem_reverse, List.all_eq_true]
  constructor
  · intro h x hx
    rcases List.mem_append.mp
        ((List.takeWhile_append_dropWhile (p := Char.isWhitespace) (l := s)) ▸ hx) with
      h1 | h1
    · exact List.mem_takeWhile_imp h1
    · exact h x h1
  · intro h x hx
    exact h x (List.dropWhile_sublist Char.isWhitespace |>.mem hx)

lemma head_dropWhile_not_ws (l : PyStr) (c : Char)
    (h : (l.dropWhile Char.isWhitespace).head? = some c) : c.isWhitespace = false := by
  induction l with
  | nil => simp at h
  | cons a l ih =>
      rw [List.dropWhile_cons] at h
      split_ifs at h with hw
      · exact ih h
      · simp only [List.head?_cons, Option.some.injEq] at h
        subst h
        exact Bool.eq_false_iff.mpr hw

lemma pyStrip_last_not_ws (s : PyStr) (c : Char)
    (h : (pyStrip s).getLast? = some c) : c.isWhitespace = false := by
  unfold pyStrip at h
  rw [List.getLast?_reverse] at h
  exact head_dropWhile_not_ws _ c h

lemma headerRule_marker (ls : PyStr) (t : SectionType) (k : Nat)
    (h : headerRule ls = some (t, k)) :
    ∃ marker : PyStr,
      marker.length = k ∧ marker.getLast? = some ' ' ∧ marker ++ ls.drop k = ls := by
  unfold headerRule at h
  split_ifs at h with h3 h2 h1
  · refine ⟨"### ".data, ?_, rfl, ?_⟩
    · simp only [Option.some.injEq, Prod.mk.injEq] at h
      rw [← h.2]; rfl
    · obtain ⟨tail, htail⟩ := List.isPrefixOf_iff_prefix.mp h3
      simp only [Option.some.injEq, Prod.mk.injEq] at h
      rw [← h.2, ← htail,
        show (4 : Nat) = "### ".data.length from rfl, List.drop_left]
  · refine ⟨"## ".data, ?_, rfl, ?_⟩
    · simp only [Option.some.injEq, Prod.mk.injEq] at h
      rw [← h.2]; rfl
    · obtain ⟨tail, htail⟩ := List.isPrefixOf_iff_prefix.mp h2
      simp only [Option.some.injEq, Prod.mk.injEq] at h
      rw [← h.2, ← htail,
        show (3 : Nat) = "## ".data.length from rfl, List.drop_left]
  · refine ⟨"# ".data, ?_, rfl, ?_⟩
    · simp only [Option.some.injEq, Prod.mk.injEq] at h
      rw [← h.2]; rfl
    · obtain ⟨tail, htail⟩ := List.isPrefixOf_iff_prefix.mp h1
      simp only [Option.some.injEq, Prod.mk.injEq] at h
      rw [← h.2, ← htail,
        show (2 : Nat) = "# ".data.length from rfl, List.drop_left]

lemma headerRule_drop_not_all_ws (line : PyStr) (t : SectionType) (k : Nat)
    (h : headerRule (pyStrip line) = some (t, k)) :
    ((pyStrip line).drop k).all Char.isWhitespace = false := by
  obtain ⟨marker, hlen, hlast, happ⟩ := headerRule_marker _ _ _ h
  by_contra hall
  rw [Bool.not_eq_false] at hall
  rcases hdrop : (pyStrip line).drop k with _ | ⟨d, ds⟩
  · rw [hdrop, List.append_nil] at happ
    have hl : (pyStrip line).getLast? = some ' ' := by rw [← happ]; exact hlast
    have := pyStrip_last_not_ws line ' ' hl
    simp at this
  · rw [hdrop] at hall
    have htail : (d :: ds) ≠ [] := by simp
    have hlast2 : (pyStrip line).getLast? = (d :: ds).getLast? := by
      rw [← happ, hdrop]
      exact List.getLast?_append_of_ne_nil _ htail
    have hmem : (d :: ds).getLast htail ∈ d :: ds := List.getLast_mem htail
    have hlw : ((d :: ds).getLast htail).isWhitespace = true :=
      List.all_eq_true.mp hall _ hmem
    have hsome : (pyStrip line).getLast? = some ((d :: ds).getLast htail) := by
      rw [hlast2, List.getLast?_eq_getLast _ htail]
    have := pyStrip_last_not_ws line _ hsome
    rw [hlw] at this
    exact absurd this (by simp)

lemma endsWs_append_right (a b : PyStr) (hb : endsWs b = true) :
    endsWs (a ++ b) = true := by
  induction a with
  | nil => simpa using hb
  | cons c a ih =>
      have hne : a ++ b ≠ [] := by
        intro hcontra
        rcases List.append_eq_nil.mp hcontra with ⟨-, rfl⟩
        simp [endsWs] at hb
      rcases hx : a ++ b with _ | ⟨x, xs⟩
      · exact absurd hx hne
      · rw [List.cons_append, hx]
        show endsWs (x :: xs) = true
        rw [← hx]
        exact ih

lemma endsWs_flatten (L : List PyStr) (hL : ∀ p ∈ L, endsWs p = true) :
    L.flatten = [] ∨ endsWs L.flatten = true := by
  induction L with
  | nil => exact Or.inl rfl
  | cons p L ih =>
      right
      rw [List.flatten_cons]
      rcases ih (fun q hq => hL q (List.mem_cons_of_mem _ hq)) with hnil | hew
      · rw [hnil, List.append_nil]
        exact hL p (List.mem_cons_self p L)
      · exact endsWs_append_right _ _ hew

lemma pySplitWs_flatten (L : List PyStr) (hL : ∀ p ∈ L, endsWs p = true) :
    pySplitWs L.flatten = (L.map pySplitWs).flatten := by
  induction L with
  | nil => rfl
  | cons p L ih =>
      rw [List.flatten_cons,
        pySplitWs_append_of_endsWs p _ (Or.inr (hL p (List.mem_cons_self p L))),
        List.map_cons, List.flatten_cons,
        ih (fun q hq => hL q (List.mem_cons_of_mem _ hq))]

lemma flushIf_endsWs (cur : SectionData) (secs : List SectionData)
    (hs : ∀ p ∈ secs, endsWs p.content = true)
    (hc : cur.content = [] ∨ endsWs cur.content = true) :
    ∀ p ∈ flushIf cur secs, endsWs p.content = true := by
  intro p hp
  unfold flushIf at hp
  split_ifs at hp with hb
  · exact hs p hp
  · rcases List.mem_append.mp hp with h1 | h1
    · exact hs p h1
    · have hpc : p = cur := by simpa using h1
      subst hpc
      rcases hc with hnil | hew
      · rw [hnil] at hb
        exact absurd rfl hb
      · exact hew

lemma flushIf_words (cur : SectionData) (secs : List SectionData)
    (hs : ∀ p ∈ secs, endsWs p.content = true)
    (hc : cur.content = [] ∨ endsWs cur.content = true) :
    pySplitWs (((flushIf cur secs).map SectionData.content).flatten)
      = pySplitWs ((secs.map SectionData.content).flatten) ++ pySplitWs cur.content := by
  unfold flushIf
  split_ifs with hb
  · have hall : cur.content.all Char.isWhitespace = true := (pyStrip_isEmpty_iff _).mp hb
    rw [pySplitWs_eq_nil_of_all _ hall, List.append_nil]
  · rw [List.map_append, List.flatten_append]
    have hx : (([cur].map SectionData.content)).flatten = cur.content := by simp
    rw [hx]
    apply pySplitWs_append_of_endsWs
    apply endsWs_flatten
    intro q hq
    rw [List.mem_map] at hq
    obtain ⟨p, hp, rfl⟩ := hq
    exact hs p hp

lemma parseLinesSpec_words (lines : List PyStr) :
    ∀ cur secs, (cur.content = [] ∨ endsWs cur.content = true) →
      (∀ p ∈ secs, endsWs p.content = true) →
      pySplitWs (((parseLinesSpec lines cur secs).map SectionData.content).flatten)
        = pySplitWs ((secs.map SectionData.content).flatten)
          ++ pySplitWs cur.content
          ++ pySplitWs ((lines.map (fun l => stripMarkersLine l ++ ['\n'])).flatten) := by
  induction lines with
  | nil =>
      intro cur secs hc hs
      rw [show parseLinesSpec [] cur secs = flushIf cur secs from rfl]
      rw [flushIf_words cur secs hs hc]
      simp [pySplitWs, pySplitWsAux]
  | cons line rest ih =>
      intro cur secs hc hs
      rcases hh : headerRule (pyStrip line) with - | ⟨t, k⟩
      · simp only [parseLinesSpec, hh]
        rw [ih _ _ (Or.inr (endsWs_snoc_nl (cur.content ++ line))) hs]
        have hassoc : cur.content ++ line ++ ['\n'] = cur.content ++ (line ++ ['\n']) :=
          List.append_assoc _ _ _
        rw [hassoc, pySplitWs_append_of_endsWs cur.content (line ++ ['\n']) hc]
        have hstrip : stripMarkersLine line = line := by
          unfold stripMarkersLine
          rw [hh]
        rw [List.map_cons, List.flatten_cons, hstrip,
          pySplitWs_append_of_endsWs (line ++ ['\n']) _ (Or.inr (endsWs_snoc_nl line))]
        simp [List.append_assoc]
      · simp only [parseLinesSpec, hh]
        rw [ih _ _ (Or.inr (endsWs_snoc_nl _)) (flushIf_endsWs cur secs hs hc)]
        rw [flushIf_words cur secs hs hc]
        have hstrip : stripMarkersLine line = (pyStrip line).drop k := by
          unfold stripMarkersLine
          rw [hh]
        rw [List.map_cons, List.flatten_cons, hstrip,
          pySplitWs_append_of_endsWs ((pyStrip line).drop k ++ ['\n']) _
            (Or.inr (endsWs_snoc_nl _))]
        simp [List.append_assoc]

lemma parseLinesSpec_eq_nil_inv (lines : List PyStr) :
    ∀ cur secs, parseLinesSpec lines cur secs = [] →
      secs = [] ∧ (pyStrip cur.content).isEmpty = true ∧
        ∀ l ∈ lines, l.all Char.isWhitespace = true := by
  induction lines with
  | nil =>
      intro cur secs h
      rw [show parseLinesSpec [] cur secs = flushIf cur secs from rfl] at h
      unfold flushIf at h
      split_ifs at h with hb
      · exact ⟨h, hb, by simp⟩
      · exact absurd h (by simp)
  | cons line rest ih =>
      intro cur secs h
      rcases hh : headerRule (pyStrip line) with - | ⟨t, k⟩
      · simp only [parseLinesSpec, hh] at h
        obtain ⟨hsecs, hblank, hrest⟩ := ih _ _ h
        have hall := (pyStrip_isEmpty_iff _).mp hblank
        rw [List.append_assoc, List.all_append, List.all_append, Bool.and_eq_true,
          Bool.and_eq_true] at hall
        refine ⟨hsecs, (pyStrip_isEmpty_iff _).mpr hall.1, ?_⟩
        intro l hl
        rcases List.mem_cons.mp hl with rfl | hl2
        · exact hall.2.1
        · exact hrest l hl2
      · simp only [parseLinesSpec, hh] at h
        obtain ⟨-, hblank, -⟩ := ih _ _ h
        have hall := (pyStrip_isEmpty_iff _).mp hblank
        rw [List.all_append, Bool.and_eq_true] at hall
        exact absurd hall.1 (by simpa using headerRule_drop_not_all_ws line t k hh)

lemma splitNl_ne_nil (s : PyStr) : splitNl s ≠ [] := by
  cases s with
  | nil => simp [splitNl]
  | cons c rest =>
      rw [splitNl]
      split_ifs
      · simp
      · rcases h : splitNl rest with _ | ⟨p, ps⟩ <;> simp

lemma splitNl_flatten (s : PyStr) :
    ((splitNl s).map (fun l => l ++ ['\n'])).flatten = s ++ ['\n'] := by
  induction s with
  | nil => rfl
  | cons c rest ih =>
      rw [splitNl]
      split_ifs with hc
      · subst hc
        simp only [List.map_cons, List.flatten_cons, List.nil_append]
        rw [ih]
        rfl
      · rcases hsp : splitNl rest with _ | ⟨p, ps⟩
        · exact absurd hsp (splitNl_ne_nil rest)
        · rw [hsp] at ih
          simp only [List.map_cons, List.flatten_cons] at ih ⊢
          simp only [List.cons_append, List.append_assoc] at ih ⊢
          rw [ih]

lemma headerRule_nil : headerRule [] = none := rfl

lemma parse_sections_words (text : PyStr) :
    pySplitWs (((parse_sections text).map SectionData.content).flatten)
      = pySplitWs (strippedLinesText text) := by
  rw [parse_sections_eq_spec]
  have hmain := parseLinesSpec_words (splitNl text) ⟨SectionType.body, []⟩ []
      (Or.inl rfl) (by intro p hp; simp at hp)
  rcases hsecs : parseLinesSpec (splitNl text) ⟨SectionType.body, []⟩ [] with _ | ⟨s0, srest⟩
  · have hfb : parse_sectionsSpec text = [⟨SectionType.body, text⟩] := by
      simp [parse_sectionsSpec, hsecs]
    rw [hsecs] at hmain
    simp only [List.map_nil, List.flatten_nil, List.nil_append,
      show pySplitWs [] = [] from rfl] at hmain
    obtain ⟨-, -, hlines⟩ := parseLinesSpec_eq_nil_inv _ _ _ hsecs
    have htextall : text.all Char.isWhitespace = true := by
      have hfl := splitNl_flatten text
      have hflall : (text ++ ['\n']).all Char.isWhitespace = true := by
        rw [← hfl, List.all_eq_true]
        intro x hx
        rw [List.mem_flatten] at hx
        obtain ⟨piece, hpmem, hxp⟩ := hx
        rw [List.mem_map] at hpmem
        obtain ⟨l, hlmem, rfl⟩ := hpmem
        rcases List.mem_append.mp hxp with h1 | h1
        · exact List.all_eq_true.mp (hlines l hlmem) x h1
        · have : x = '\n' := by simpa using h1
          subst this
          decide
      rw [List.all_append, Bool.and_eq_true] at hflall
      exact hflall.1
    rw [hfb]
    simp only [List.map_cons, List.map_nil, List.flatten_cons, List.flatten_nil,
      List.append_nil]
    rw [pySplitWs_eq_nil_of_all _ htextall, strippedLinesText, ← hmain]
  · have hfb : parse_sectionsSpec text
        = parseLinesSpec (splitNl text) ⟨SectionType.body, []⟩ [] := by
      simp [parse_sectionsSpec, hsecs]
    rw [hfb]
    rw [hmain]
    simp [strippedLinesText, pySplitWs, pySplitWsAux]

lemma stageSections_orders (docId : PyStr) (secs : List SectionData) :
    (stageSections docId secs).map SectionRow.order = List.range secs.length := by
  unfold stageSections
  rw [List.map_map]
  have : (SectionRow.order ∘ fun p : Nat × SectionData =>
      SectionRow.mk docId p.2.type p.2.content p.1) = Prod.fst := by
    funext p
    rfl
  rw [this, List.enum_map_fst]

/-- C6: concatenating the contents of `parse_sections` in order reproduces
the input up to heading-marker stripping and whitespace normalisation
(equal whitespace-separated word sequences), and the staged `Section` rows
carry contiguous `order` values `0, 1, ...` in reading order. -/
theorem sections_reconstruct_and_ordered (text : PyStr) (h : text ≠ []) :
    pySplitWs (((parse_sections text).map SectionData.content).flatten)
        = pySplitWs (strippedLinesText text) ∧
    ∀ docId : PyStr, (stageSections docId (parse_sections text)).map SectionRow.order
        = List.range (parse_sections text).length := by
  exact ⟨parse_sections_words text, fun docId => stageSections_orders docId _⟩

/-- Witness for C6 on a concrete document, discharging the non-emptiness
hypothesis. -/
theorem sections_reconstruct_and_ordered_witness :
    pySplitWs (((parse_sections "# T\nab cd\n## S\nef".data).map SectionData.content).flatten)
        = pySplitWs (strippedLinesText "# T\nab cd\n## S\nef".data) ∧
    (stageSections "d1".data (parse_sections "# T\nab cd\n## S\nef".data)).map
        SectionRow.order
      = List.range (parse_sections "# T\nab cd\n## S\nef".data).length := by
  exact ⟨(sections_reconstruct_and_ordered "# T\nab cd\n## S\nef".data (by decide)).1,
    (sections_reconstruct_and_ordered "# T\nab cd\n## S\nef".data (by decide)).2 "d1".data⟩

/-! ## The orchestrator (`DocumentProcessor.process_document`, lines 39-128,
and `_mark_failed`, lines 326-335) -/

/-- `schemas.ProcessingStatus` (schemas.py lines 7-12): its only members
are UPLOADED, PROCESSING, COMPLETED and FAILED. -/
inductive ProcessingStatus
  | uploaded
  | processing
  | completed
  | failed
deriving DecidableEq

/-- The `.value` string of each member. -/
def ProcessingStatus.value : ProcessingStatus → PyStr
  | .uploaded => "uploaded".data
  | .processing => "processing".data
  | .completed => "completed".data
  | .failed => "failed".data

/-- Python attribute lookup `ProcessingStatus.<NAME>`; `none` models
`AttributeError` (whose `str` is the attribute name, e.g. `"RUNNING"`).
The enum has no RUNNING member, so the lookup `ProcessingStatus.RUNNING`
written at document_processor.py line 63 yields `none`. -/
def ProcessingStatus.attr : String → Option ProcessingStatus
  | "UPLOADED" => some .uploaded
  | "PROCESSING" => some .processing
  | "COMPLETED" => some .completed
  | "FAILED" => some .failed
  | _ => none

/-- The metadata dict built by `_extract_with_pymupdf` (lines 160-168);
the timestamp and the constant extractor/format strings are not modelled. -/
structure ExtractMeta where
  pages : Nat
  file_size : Nat
  has_images : Bool
  has_tables : Bool
deriving DecidableEq

/-- What `extract_text` returns: `{"text": ..., "metadata": ...}`
(the `sections` entry is always `[]` and never read). -/
structure ExtractedData where
  text : PyStr
  metadata : ExtractMeta
deriving DecidableEq

/-- The `documents` row as the orchestrator mutates it; `metadata_json`
holds the metadata together with the quality score that line 91 stores
into it before the JSON encoding (the encoding itself is modelled
structurally). -/
structure DocState where
  status : PyStr
  error_message : Option PyStr := none
  extracted_text : Option PyStr := none
  metadata_json : Option (ExtractMeta × ℚ) := none
deriving DecidableEq

/-- The `processing_jobs` row; `completed_at` records whether the
timestamp was set. -/
structure JobState where
  job_type : PyStr
  status : PyStr
  error_message : Option PyStr := none
  completed_at : Bool := false
  result_data : Option PyStr := none
deriving DecidableEq

/-- The SQLAlchemy session: the loaded Document and ProcessingJob objects
(mutated in memory), the `Section` rows added with `db.add` but not yet
flushed, and the rows already flushed to the database. -/
structure Session where
  doc : Option DocState
  job : Option JobState
  pendingSections : List SectionRow
  committedSections : List SectionRow
deriving DecidableEq

/-- `db.commit()`: every pending change of the session is flushed. -/
def Session.commit (s : Session) : Session :=
  { s with committedSections := s.committedSections ++ s.pendingSections,
           pendingSections := [] }

/-- `DocumentProcessor._mark_failed` (lines 326-335): set FAILED and the
message on the document and, when present, the job (with a completion
timestamp), then `db.commit()` — a plain commit, so every change still
pending in the session is flushed with it. -/
def mark_failed (s : Session) (message : PyStr) : Session :=
  Session.commit
    { s with
      doc := s.doc.map fun d =>
        { d with status := ProcessingStatus.failed.value,
                 error_message := some message },
      job := s.job.map fun j =>
        { j with status := ProcessingStatus.failed.value,
                 error_message := some message,
                 completed_at := true } }

/-- How the extraction awaited at lines 76-79 can end: a result, a raised
exception with its message, or `asyncio.TimeoutError`. -/
inductive ExtractOutcome
  | ok (data : ExtractedData)
  | raises (msg : PyStr)
  | timedOut
deriving DecidableEq

/-- One run's environment: the document id and whether its row exists,
the file size read at line 72, the extraction outcome, and whether
`save_processed_data` (line 107) raises (`some` carries the message). -/
structure Env where
  docId : PyStr
  docFound : Bool
  initialDoc : DocState
  fileSizeBytes : Nat
  extract : ExtractOutcome
  saveError : Option PyStr
deriving DecidableEq

/-- The run's outcome: the final session and, when the run re-raises a
`ProcessingException`, its message. -/
structure RunResult where
  finalState : Session
  raised : Option PyStr
deriving DecidableEq

/-- Line 125: `f"Processing failed for {doc_id}: {str(e)}"`. -/
def msgFailedFor (docId e : PyStr) : PyStr :=
  "Processing failed for ".data ++ docId ++ ": ".data ++ e

/-- Line 119: `f"Processing timed out after {timeout}s for document {doc_id}"`. -/
def msgTimeoutFor (t : Nat) (docId : PyStr) : PyStr :=
  "Processing timed out after ".data ++ (Nat.repr t).data
    ++ "s for document ".data ++ docId

/-- Line 82: the message of the empty-extraction exception. -/
def msgNoText : PyStr := "No text extracted from document.".data

/-- Line 113's result summary (the 2-decimal quality formatting of the
f-string is not modelled). -/
def resultSummary (n : Nat) : PyStr :=
  "Extracted ".data ++ (Nat.repr n).data ++ " characters".data

/-- `DocumentProcessor.process_document` (lines 39-128), translated
line by line over `Session`.  Note the job-creation step: the source
builds `ProcessingJob(..., status=ProcessingStatus.RUNNING.value, ...)`,
and `ProcessingStatus.attr "RUNNING"` is `none`, so the constructor
argument raises `AttributeError("RUNNING")`, caught by the
`except Exception` handler of lines 124-128. -/
def process_document (env : Env) : RunResult :=
  if env.docFound then
    let doc1 := { env.initialDoc with status := ProcessingStatus.processing.value }
    let db : Session := Session.commit ⟨some doc1, none, [], []⟩
    match ProcessingStatus.attr "RUNNING" with
    | none =>
        let msg := msgFailedFor env.docId "RUNNING".data
        ⟨mark_failed db msg, some msg⟩
    | some runStatus =>
        let job : JobState := { job_type := "extraction".data, status := runStatus.value }
        let db := Session.commit { db with job := some job }
        let timeoutSec := computeTimeout env.fileSizeBytes
        match env.extract with
        | .timedOut =>
            let msg := msgTimeoutFor timeoutSec env.docId
            ⟨mark_failed db msg, some msg⟩
        | .raises e =>
            let msg := msgFailedFor env.docId e
            ⟨mark_failed db msg, some msg⟩
        | .ok data =>
            if data.text.isEmpty then
              let msg := msgFailedFor env.docId msgNoText
              ⟨mark_failed db msg, some msg⟩
            else
              let q := calculate_quality data.text
              let doc2 := { doc1 with
                extracted_text := some data.text,
                metadata_json := some (data.metadata, q) }
              let db := { db with
                doc := some doc2,
                pendingSections := db.pendingSections
                  ++ stageSections env.docId (parse_sections data.text) }
              match env.saveError with
              | some e =>
                  let msg := msgFailedFor env.docId e
                  ⟨mark_failed db msg, some msg⟩
              | none =>
                  let doc3 := { doc2 with status := ProcessingStatus.completed.value }
                  let job2 := { job with
                    status := ProcessingStatus.completed.value,
                    completed_at := true,
                    result_data := some (resultSummary data.text.length) }
                  ⟨Session.commit { db with doc := some doc3, job := some job2 }, none⟩
  else
    ⟨⟨none, none, [], []⟩, none⟩

/-- C8: a run whose document row is absent returns silently — no status
change, no ProcessingJob, nothing persisted, no exception. -/
theorem absent_document_is_noop (env : Env) (h : env.docFound = false) :
    process_document env = ⟨⟨none, none, [], []⟩, none⟩ := by
  unfold process_document
  rw [h]
  simp

/-- Witness for C8 at a concrete environment. -/
theorem absent_document_is_noop_witness :
    process_document ⟨"d4".data, false, ⟨"uploaded".data, none, none, none⟩, 0,
        ExtractOutcome.timedOut, none⟩
      = ⟨⟨none, none, [], []⟩, none⟩ :=
  absent_document_is_noop _ rfl

/-- C2 (code bug): on a found document — here with an extraction that would
succeed — the run fails at step 3 itself: `ProcessingStatus.RUNNING` does
not exist, so the Document is marked FAILED with the `AttributeError`
message `RUNNING`, no ProcessingJob row is ever created (so none is ever
transitioned to FAILED on extraction errors or timeouts), and the raised
`ProcessingException` carries the RUNNING message. -/
theorem run_fails_at_job_creation :
    process_document ⟨"d1".data, true, ⟨"uploaded".data, none, none, none⟩, 1048576,
        ExtractOutcome.ok ⟨"Hello world".data, ⟨1, 1048576, false, false⟩⟩, none⟩
      = ⟨⟨some ⟨"failed".data, some "Processing failed for d1: RUNNING".data,
            none, none⟩,
          none, [], []⟩,
         some "Processing failed for d1: RUNNING".data⟩ := by
  decide

/-- C7 (code bug): even when extraction would return no text at all, the
run never reaches the empty-text check of lines 81-82 — it has already
failed at job creation, and the recorded message is the RUNNING one, not
"No text extracted from document". -/
theorem empty_extraction_check_unreachable :
    process_document ⟨"d2".data, true, ⟨"uploaded".data, none, none, none⟩, 1048576,
        ExtractOutcome.ok ⟨[], ⟨1, 1048576, false, false⟩⟩, none⟩
      = ⟨⟨some ⟨"failed".data, some "Processing failed for d2: RUNNING".data,
            none, none⟩,
          none, [], []⟩,
         some "Processing failed for d2: RUNNING".data⟩ ∧
    isSubstrOf msgNoText "Processing failed for d2: RUNNING".data = false := by
  constructor <;> decide

/-- C9 (code bug): a run whose extraction and persistence would both
succeed still ends FAILED (with no quality score stored in metadata):
COMPLETED is unreachable because every run raises at job creation. -/
theorem completed_never_reached :
    process_document ⟨"d3".data, true, ⟨"uploaded".data, none, none, none⟩, 1048576,
        ExtractOutcome.ok ⟨"abstract of the results".data, ⟨2, 1048576, false, false⟩⟩,
        none⟩
      = ⟨⟨some ⟨"failed".data, some "Processing failed for d3: RUNNING".data,
            none, none⟩,
          none, [], []⟩,
         some "Processing failed for d3: RUNNING".data⟩ := by
  decide

/-- C1 (code bug): `_mark_failed`'s commit flushes whatever is pending in
the session: applied to the session as it stands after lines 90-104 (text
and metadata assigned, Section rows staged) when `save_processed_data`
raises, it persists a FAILED document that still carries `extracted_text`
and `metadata`, and commits the staged Section rows. -/
theorem mark_failed_flushes_staged_state :
    mark_failed
      ⟨some ⟨"processing".data, none, some "Hello world".data,
          some (⟨1, 42, false, false⟩, 0)⟩,
       none,
       [⟨"d5".data, SectionType.body, "Hello world".data, 0⟩], []⟩
      "Processing failed for d5: disk full".data
    = ⟨some ⟨"failed".data, some "Processing failed for d5: disk full".data,
          some "Hello world".data, some (⟨1, 42, false, false⟩, 0)⟩,
       none,
       [], [⟨"d5".data, SectionType.body, "Hello world".data, 0⟩]⟩ := by
  decide

/-- Witness for C4: the short-circuit at a short text and the penalty
decomposition at a 105-character text. -/
theorem quality_contract_witness :
    calculate_quality "x".data = 0 ∧
    calculate_quality "The abstract presents a method. The results are good and the conclusion is clear. References follow here.".data
      = max 0 (min 1 (1
          - alphaPenalty "The abstract presents a method. The results are good and the conclusion is clear. References follow here.".data
          - noisePenalty "The abstract presents a method. The results are good and the conclusion is clear. References follow here.".data
          - wordLenPenalty "The abstract presents a method. The results are good and the conclusion is clear. References follow here.".data
          + sentenceBonus "The abstract presents a method. The results are good and the conclusion is clear. References follow here.".data
          + termBonus "The abstract presents a method. The results are good and the conclusion is clear. References follow here.".data)) :=
  ⟨(quality_contract "x".data).2.1 (by decide),
   (quality_contract "The abstract presents a method. The results are good and the conclusion is clear. References follow here.".data).2.2 (by decide)⟩

/-- Witness for C10: zero exactly below 100 characters, strictly positive at
a 105-character text. -/
theorem quality_zero_iff_short_witness :
    calculate_quality "ab".data = 0 ∧
    0 < calculate_quality "The abstract presents a method. The results are good and the conclusion is clear. References follow here.".data :=
  ⟨(quality_zero_iff_short "ab".data).1.mpr (by decide),
   (quality_zero_iff_short "The abstract presents a method. The results are good and the conclusion is clear. References follow here.".data).2 (by decide)⟩
